import Mathlib

/-!
# Verification of the hfendpoints request-dispatch core

Shallow embedding of the hfendpoints repository: the request-dispatch bridge
(`hfendpoints-core`), the task envelope types (`hfendpoints-tasks`), the
OpenAI-compatible embeddings router (`hfendpoints-openai`), and the
transcription multipart decoding (`hfendpoints-http`), together with proofs
about them.

Conventions of the embedding:
* Rust `Result<T, E>` becomes `Except E T`; `Option<T>` becomes `Option T`.
* The tokio unbounded mpsc channel pair created in `EndpointContext::schedule`
  is represented by a fresh natural-number sink identifier drawn from a
  counter; the Dispatch Channel message queue is an explicit FIFO list, and
  whether the consumer side is alive is an explicit boolean (a tokio `send` on
  an unbounded channel fails exactly when the receiver has been dropped, and
  never blocks).
* Asynchronous interleaving of many producers is modelled by quantifying over
  the arbitrary total order in which their sends hit the single channel.
* `f32` values are never computed on by the code under verification, so they
  are carried as an opaque type parameter `F`; likewise the parsing of an
  `f32` from a form field is carried as an arbitrary partial function.
* Serde JSON values are modelled by the inductive `Json`; a derived
  `#[serde(untagged)]` deserializer tries the variants in declaration order.
-/

namespace Core

/-- From `hfendpoints-core/src/handler.rs`: `HandlerError`.  Only the variants
compiled without the `python` feature are modelled. -/
inductive HandlerError where
  | IpcFailed (msg : String)
  deriving DecidableEq, Repr

/-- Modelled from the spec: the module of `hfendpoints-core` that declares the
crate-level `Error` enum and the `EndpointResult` alias is not present under
`src/`; the `Handler` variant is reconstructed from its use
`Error::Handler(IpcFailed(..))` in `context.rs` and the error taxonomy of the
spec (section 4.4). -/
inductive Error where
  | Handler (e : HandlerError)
  deriving DecidableEq, Repr

/-- `EndpointResult<T> = Result<T, Error>`. -/
abbrev EndpointResult (T : Type) := Except Error T

/-- State of the Dispatch Channel together with the allocator of response
sinks.  `nextSink` is the next fresh sink identifier (each call of `schedule`
allocates a fresh `unbounded_channel` pair), `queue` is the FIFO buffer of
`(request, response-sink)` items not yet consumed by the Dispatch Loop, and
`consumerAlive` records whether the single consumer (the `ingress` receiver of
`wait_for_requests`) has not been dropped. -/
structure DispatchState (I : Type) where
  nextSink : Nat
  queue : List (I × Nat)
  consumerAlive : Bool

/-- The display of the tokio `SendError`, produced by `e.to_string()` in
`EndpointContext::schedule`. -/
def sendErrorMsg : String := "channel closed"

/-- From `hfendpoints-core/src/context.rs`: `EndpointContext::schedule`.
A fresh single-use sink/receiver pair is allocated unconditionally; then the
`(request, sink)` pair is sent on the channel.  A tokio unbounded `send` is
non-blocking and fails exactly when the consumer has been dropped, in which
case `schedule` returns `Err(Error::Handler(IpcFailed(..)))`; otherwise the
item is appended to the channel queue and the fresh receiver is returned. -/
def schedule (st : DispatchState I) (request : I) :
    EndpointResult Nat × DispatchState I :=
  let sink := st.nextSink
  if st.consumerAlive then
    (Except.ok sink,
      { st with nextSink := sink + 1, queue := st.queue ++ [(request, sink)] })
  else
    (Except.error (Error.Handler (HandlerError.IpcFailed sendErrorMsg)),
      { st with nextSink := sink + 1 })

/-- Observable events of one run of the Dispatch Loop, in order. -/
inductive LoopEvent (O : Type) where
  /-- `egress.send(response)` succeeded: `response` was written to sink
  `sink`. -/
  | delivered (sink : Nat) (response : EndpointResult O)
  /-- `egress.send` failed because the caller dropped its receiver; the loop
  logs the failure and continues. -/
  | deliveryFailed (sink : Nat)
  /-- `ingress.recv()` returned `None` (all producers dropped and the queue
  drained): the loop breaks out of the `looper` loop. -/
  | exited
  deriving Repr

/-- The event produced for one `(request, sink)` item taken off the channel:
the handler is invoked on the request and its result (ok and error alike) is
sent to the item-specific sink; `receiverOpen` tells whether the receiver of
the caller is still alive at delivery time. -/
def itemEvent (handler : I → EndpointResult O) (receiverOpen : Nat → Bool)
    (item : I × Nat) : LoopEvent O :=
  if receiverOpen item.2 then
    LoopEvent.delivered item.2 (handler item.1)
  else
    LoopEvent.deliveryFailed item.2

/-- From `hfendpoints-core/src/handler.rs`: `wait_for_requests`.  The loop
repeatedly awaits `ingress.recv()`; each received `(request, egress)` item is
handled by invoking `background_handler.on_request` and sending the resulting
`Result` on `egress` (a failed send is logged and the loop continues); when
`recv` yields `None` the loop breaks.  The channel delivers its buffered items
in FIFO order and reports closure after the last one, so a run of the loop
over a drained-then-closed channel is the event trace below.  `handler`
abstracts the awaited result of `on_request` and `receiverOpen` the liveness
of each caller-held receiver at delivery time. -/
def wait_for_requests (handler : I → EndpointResult O)
    (receiverOpen : Nat → Bool) : List (I × Nat) → List (LoopEvent O)
  | [] => [LoopEvent.exited]
  | item :: rest =>
      itemEvent handler receiverOpen item ::
        wait_for_requests handler receiverOpen rest

/-- The value an event writes to sink `s`, if any. -/
def writeTo (s : Nat) : LoopEvent O → Option (EndpointResult O)
  | LoopEvent.delivered s' v => if s' = s then some v else none
  | _ => none

/-- The values written to sink `s` during a run, in order. -/
def sinkWrites (events : List (LoopEvent O)) (s : Nat) :
    List (EndpointResult O) :=
  events.filterMap (writeTo s)

/-- Recognises the loop-exit event. -/
def isExit : LoopEvent O → Bool
  | LoopEvent.exited => true
  | _ => false

/-- Scheduling a sequence of requests one after another: an arbitrary
interleaving of any number of concurrent producers, linearised by the single
channel.  Returns the per-call results in order together with the final
state. -/
def scheduleAll (st : DispatchState I) : List I →
    List (EndpointResult Nat) × DispatchState I
  | [] => ([], st)
  | r :: rs =>
      let (res, st') := schedule st r
      let (ress, st'') := scheduleAll st' rs
      (res :: ress, st'')

/-- The initial system state: fresh sink counter, empty channel, consumer
running. -/
def initState (I : Type) : DispatchState I :=
  { nextSink := 0, queue := [], consumerAlive := true }

end Core

namespace Tasks

/-- From `hfendpoints-tasks/src/lib.rs`: `MaybeBatched<T>`, an
`#[serde(untagged)]` container holding either a single element or a sequence
of elements.  (A sibling snapshot of the crate spells the second variant
`Batch`; the declaration site under `src/` spells it `Batched`, which is the
spelling kept here.) -/
inductive MaybeBatched (T : Type) where
  | Single (item : T)
  | Batched (items : List T)
  deriving DecidableEq, Repr

/-- From `hfendpoints-tasks/src/lib.rs`: `Usage` with `prompt_tokens` and
`total_tokens`, both Rust `usize` values modelled as `Nat` (no arithmetic is
ever performed on them). -/
structure Usage where
  prompt_tokens : Nat
  total_tokens : Nat
  deriving DecidableEq, Repr

/-- From `hfendpoints-tasks/src/lib.rs`: `impl Default for Usage`. -/
def Usage.defaultValue : Usage :=
  { prompt_tokens := 0, total_tokens := 0 }

/-- From `hfendpoints-tasks/src/lib.rs`: `Usage::new` stores the two provided
counts unchanged. -/
def Usage.new (prompt_tokens total_tokens : Nat) : Usage :=
  { prompt_tokens := prompt_tokens, total_tokens := total_tokens }

/-- From `hfendpoints-tasks/src/lib.rs`: `Usage::same` assigns the one count
to both fields. -/
def Usage.same (num_tokens : Nat) : Usage :=
  { prompt_tokens := num_tokens, total_tokens := num_tokens }

/-- From `hfendpoints-tasks/src/lib.rs`: `EndpointResponse<O, U>` with a
flattened `output` and an optional `usage`. -/
structure EndpointResponse (O U : Type) where
  output : O
  usage : Option U
  deriving DecidableEq, Repr

/-- From `hfendpoints-tasks/src/embedding/mod.rs`: `EmbeddingInput`, an
`#[serde(untagged)]` union of raw text and pre-tokenized input (`Vec<u32>`
modelled as `List Nat`; the token values are only moved, never computed
with). -/
inductive EmbeddingInput where
  | Text (text : String)
  | Tokens (tokens : List Nat)
  deriving DecidableEq, Repr

/-- From `hfendpoints-tasks/src/embedding/mod.rs`:
`EmbeddingResponse = EndpointResponse<MaybeBatched<Vec<f32>>, Usage>`, the
`f32` carried as the opaque parameter `F`. -/
abbrev EmbeddingResponse (F : Type) :=
  EndpointResponse (MaybeBatched (List F)) Usage

/-- JSON values as produced and consumed by serde on the wire boundary. -/
inductive Json where
  | null
  | bool (b : Bool)
  | num (n : Nat)
  | str (s : String)
  | arr (elems : List Json)
  | obj (fields : List (String × Json))

/-- Serde decoding of a `String`. -/
def decodeString : Json → Option String
  | Json.str s => some s
  | _ => none

/-- Serde decoding of a `u32` token id. -/
def decodeNat : Json → Option Nat
  | Json.num n => some n
  | _ => none

/-- Serde decoding of a `Vec<T>`: the value must be an array and every
element must decode as a `T`. -/
def decodeArray (dec : Json → Option T) : Json → Option (List T)
  | Json.arr elems => elems.mapM dec
  | _ => none

/-- Serde encoding of `EmbeddingInput` (untagged: a bare string for `Text`, a
bare array of numbers for `Tokens`). -/
def EmbeddingInput.encode : EmbeddingInput → Json
  | EmbeddingInput.Text s => Json.str s
  | EmbeddingInput.Tokens ts => Json.arr (ts.map Json.num)

/-- Serde decoding of `EmbeddingInput`: the derived untagged deserializer
tries the variants in declaration order, `Text` first, then `Tokens`. -/
def EmbeddingInput.decode (j : Json) : Option EmbeddingInput :=
  match decodeString j with
  | some s => some (EmbeddingInput.Text s)
  | none => (decodeArray decodeNat j).map EmbeddingInput.Tokens

/-- Serde encoding of `MaybeBatched<T>` given an encoder for `T`: untagged,
so `Single x` is encoded as `x` itself and `Batched xs` as the bare array of
the encoded elements. -/
def MaybeBatched.encode (encT : T → Json) : MaybeBatched T → Json
  | MaybeBatched.Single x => encT x
  | MaybeBatched.Batched xs => Json.arr (xs.map encT)

/-- Serde decoding of `MaybeBatched<T>` given a decoder for `T`: the derived
untagged deserializer tries the variants in declaration order, so `Single` is
attempted first and `Batched` (a `Vec<T>`) is the fallback. -/
def MaybeBatched.decode (decT : Json → Option T) (j : Json) :
    Option (MaybeBatched T) :=
  match decT j with
  | some x => some (MaybeBatched.Single x)
  | none => (decodeArray decT j).map MaybeBatched.Batched

end Tasks

namespace Http

/-- From `hfendpoints-http/src/error.rs`: `HttpError`.  The payloads of the
`Io` and `Multipart` variants are carried as their display strings. -/
inductive HttpError where
  | Endpoint (e : Core.Error)
  | Io (msg : String)
  | Multipart (msg : String)
  | Validation (msg : String)
  | NoResponse
  deriving DecidableEq, Repr

/-- From `hfendpoints-http/src/error.rs`: the status code chosen by
`IntoResponse for HttpError` (400 for the validation class, 500 for the
server-error class). -/
def HttpError.statusCode : HttpError → Nat
  | HttpError.Endpoint _ => 500
  | HttpError.Io _ => 500
  | HttpError.Multipart _ => 400
  | HttpError.Validation _ => 400
  | HttpError.NoResponse => 500

/-- `HttpResult<T> = Result<T, HttpError>`. -/
abbrev HttpResult (T : Type) := Except HttpError T

/-- From `hfendpoints-http/src/context.rs`: the per-request correlation
`Context` holding the request identifier taken from the transport header. -/
structure Context where
  request_id : String
  deriving DecidableEq, Repr

end Http

namespace OpenAi

open Core Tasks Http

/-- From `hfendpoints-openai/src/embeddings/mod.rs`: the `object` tag of one
embedding datum (serialized as the string `embedding`). -/
inductive EmbeddingTag where
  | Embedding
  deriving DecidableEq, Repr

/-- From `hfendpoints-openai/src/embeddings/mod.rs`: one datum of the wire
response; `embedding: Vec<f32>` is carried with the opaque parameter `F`. -/
structure Embedding (F : Type) where
  object : EmbeddingTag
  index : Nat
  embedding : List F
  deriving DecidableEq, Repr

/-- From `hfendpoints-openai/src/embeddings/mod.rs`: `Embedding::new` always
tags the datum with `object = embedding`. -/
def Embedding.new (index : Nat) (embedding : List F) : Embedding F :=
  { object := EmbeddingTag.Embedding, index := index, embedding := embedding }

/-- From `hfendpoints-openai/src/embeddings/mod.rs`: the `object` tag of the
whole wire response (serialized as the string `list`). -/
inductive EmbeddingResponseTag where
  | List
  deriving DecidableEq, Repr

/-- From `hfendpoints-openai/src/embeddings/mod.rs`:
`OpenAiEmbeddingResponse { object, data, model, usage }`. -/
structure OpenAiEmbeddingResponse (F : Type) where
  object : EmbeddingResponseTag
  data : List (Embedding F)
  model : String
  usage : Usage
  deriving DecidableEq, Repr

/-- From `hfendpoints-openai/src/embeddings/mod.rs`:
`OpenAiEmbeddingResponse::new` always tags the response with
`object = list`. -/
def OpenAiEmbeddingResponse.new (data : List (Embedding F)) (model : String)
    (usage : Usage) : OpenAiEmbeddingResponse F :=
  { object := EmbeddingResponseTag.List, data := data, model := model,
    usage := usage }

/-- From `hfendpoints-openai/src/embeddings/mod.rs`: `EncodingFormat`. -/
inductive EncodingFormat where
  | Float
  | Base64
  deriving DecidableEq, Repr

/-- From `hfendpoints-openai/src/embeddings/mod.rs`:
`OpenAiEmbeddingRequest`. -/
structure OpenAiEmbeddingRequest where
  encoding_format : EncodingFormat
  input : MaybeBatched EmbeddingInput
  model : Option String
  dimension : Option Nat
  user : Option String
  deriving DecidableEq, Repr

/-- From `hfendpoints-openai/src/embeddings/mod.rs`:
`TryFrom<EmbeddingResponse> for OpenAiEmbeddingResponse`.  A missing usage is
replaced by `Usage::default()`; a `Single` output becomes the one datum of
index 0; a batched output is enumerated so datum `i` carries index `i`; the
`model` field is left empty; the conversion always returns `Ok`. -/
def tryFromEmbeddingResponse (value : EmbeddingResponse F) :
    EndpointResult (OpenAiEmbeddingResponse F) :=
  let usage := value.usage.getD Usage.defaultValue
  let embeddings :=
    match value.output with
    | MaybeBatched.Single item => [Embedding.new 0 item]
    | MaybeBatched.Batched items =>
        items.enum.map fun p => Embedding.new p.1 p.2
  Except.ok (OpenAiEmbeddingResponse.new embeddings "" usage)

/-- From `hfendpoints-openai/src/embeddings/mod.rs`: the `embed` route
handler.  It builds the correlation context, schedules the request on the
endpoint context (propagating a schedule failure with the question-mark
operator through `From<EndpointError> for HttpError`), then awaits the first
value of the fresh receiver: a received value is propagated (its own error
again through the question-mark operator), and a closed-without-value channel
yields `HttpError::NoResponse`.  `writesOf` gives, for each sink, the values
written to it before the sink side was dropped, so `recv` on sink `s` yields
`(writesOf s).head?`. -/
def embed (st : DispatchState (OpenAiEmbeddingRequest × Context))
    (requestId : String) (request : OpenAiEmbeddingRequest)
    (writesOf : Nat → List (EndpointResult (OpenAiEmbeddingResponse F))) :
    HttpResult (OpenAiEmbeddingResponse F)
      × DispatchState (OpenAiEmbeddingRequest × Context) :=
  let ctx : Context := { request_id := requestId }
  let (res, st') := schedule st (request, ctx)
  match res with
  | Except.error e => (Except.error (HttpError.Endpoint e), st')
  | Except.ok sink =>
      match (writesOf sink).head? with
      | some (Except.ok response) => (Except.ok response, st')
      | some (Except.error e) => (Except.error (HttpError.Endpoint e), st')
      | none => (Except.error HttpError.NoResponse, st')

end OpenAi

namespace Transcription

open Core Http

/-- From `hfendpoints-http/src/audio/transcription.rs`: `ResponseFormat`. -/
inductive ResponseFormat where
  | Json
  | Text
  | VerboseJson
  deriving DecidableEq, Repr

/-- From `hfendpoints-http/src/audio/transcription.rs`:
`TranscriptionRequest`.  The `file` bytes are carried as a `String`, the
`f32` temperature as the opaque parameter `Temp`. -/
structure TranscriptionRequest (Temp : Type) where
  file : String
  content_type : String
  language : String
  prompt : Option String
  temperature : Temp
  response_format : ResponseFormat
  deriving DecidableEq, Repr

/-- One decoded multipart form field: its name, the optional content type of
its payload, and its payload (bytes and text alike carried as a `String`). -/
structure Field where
  name : String
  contentType : Option String
  content : String
  deriving DecidableEq, Repr

/-- The mutable accumulators of `try_from_multipart` before the final
`validate` call.  In the source each accumulator is an
`HttpResult<Option<..>>`, but every assignment stores `Ok(..)` and every
failure exits the loop early, so the `Ok` layer is dropped here. -/
structure FormAcc (Temp : Type) where
  file : Option String
  content_type : Option String
  language : Option String
  prompt : Option String
  temperature : Option Temp
  response_format : Option String

/-- The initial (all-`None`) accumulators. -/
def FormAcc.empty : FormAcc Temp :=
  { file := none, content_type := none, language := none, prompt := none,
    temperature := none, response_format := none }

/-- Outcome of running a fallible Rust function that may also panic. -/
inductive MultipartOutcome (α : Type) where
  | ok (value : α)
  | err (error : HttpError)
  | panicked (msg : String)
  deriving Repr

/-- From `hfendpoints-http/src/audio/transcription.rs`: the field loop of
`TranscriptionRequest::try_from_multipart`.  Fields are consumed in order; a
`file` field records its content type (defaulting to `unknown`) and bytes; a
`temperature` field is parsed by `f32::from_str`, whose failure converts to
`HttpError::Validation` via `From<ParseFloatError>` and exits early through
the question-mark operator; any field with an unrecognised name (the match
arms are exactly `file`, `language`, `prompt`, `temperature`,
`response_format`) returns `HttpError::Validation("Unknown field: ..")`
immediately.  `parseTemp` abstracts `f32::from_str`. -/
def multipartLoop (parseTemp : String → Option Temp) (acc : FormAcc Temp) :
    List Field → MultipartOutcome (FormAcc Temp)
  | [] => MultipartOutcome.ok acc
  | f :: rest =>
      if f.name = "file" then
        multipartLoop parseTemp
          { acc with content_type := some (f.contentType.getD "unknown"),
                     file := some f.content } rest
      else if f.name = "language" then
        multipartLoop parseTemp { acc with language := some f.content } rest
      else if f.name = "prompt" then
        multipartLoop parseTemp { acc with prompt := some f.content } rest
      else if f.name = "temperature" then
        match parseTemp f.content with
        | some t =>
            multipartLoop parseTemp { acc with temperature := some t } rest
        | none =>
            MultipartOutcome.err
              (HttpError.Validation "invalid float literal")
      else if f.name = "response_format" then
        multipartLoop parseTemp
          { acc with response_format := some f.content } rest
      else
        MultipartOutcome.err
          (HttpError.Validation ("Unknown field: " ++ f.name))

/-- From `hfendpoints-http/src/audio/transcription.rs`:
`TranscriptionRequest::validate`.  A missing file yields
`HttpError::Validation("Required parameter 'file' was not provided")`
(rendered here without the quotes around `file` to keep the embedding free of
escaped characters); then `response_format` defaults to `json` and anything
but the three known names is rejected; `language` defaults to `en` and
`temperature` to 0.0 (the zero of the opaque temperature type is the
parameter `zeroTemp`). -/
def validate (zeroTemp : Temp) (file : Option String) (content_type : String)
    (language : Option String) (prompt : Option String)
    (temperature : Option Temp) (response_format : Option String) :
    HttpResult (TranscriptionRequest Temp) :=
  match file with
  | none =>
      Except.error
        (HttpError.Validation "Required parameter file was not provided")
  | some file =>
      let rf := response_format.getD "json"
      let parsed : HttpResult ResponseFormat :=
        if rf = "json" then Except.ok ResponseFormat.Json
        else if rf = "verbose_json" then Except.ok ResponseFormat.VerboseJson
        else if rf = "text" then Except.ok ResponseFormat.Text
        else
          Except.error (HttpError.Validation ("Unknown response_format: " ++ rf
            ++ ". Possible values are: json, verbose_json, text."))
      match parsed with
      | Except.error e => Except.error e
      | Except.ok response_format =>
          Except.ok
            { file := file, content_type := content_type,
              language := language.getD "en", prompt := prompt,
              temperature := temperature.getD zeroTemp,
              response_format := response_format }

/-- From `hfendpoints-http/src/audio/transcription.rs`:
`TranscriptionRequest::try_from_multipart`.  After the field loop, the
arguments of `validate` are evaluated left to right: `file?` never fails (the
accumulator always holds `Ok`), and then `content_type.unwrap()` panics
whenever no `file` field was seen (the content type accumulator is only ever
set by the `file` arm). -/
def try_from_multipart (parseTemp : String → Option Temp) (zeroTemp : Temp)
    (fields : List Field) : MultipartOutcome (TranscriptionRequest Temp) :=
  match multipartLoop parseTemp FormAcc.empty fields with
  | MultipartOutcome.err e => MultipartOutcome.err e
  | MultipartOutcome.panicked m => MultipartOutcome.panicked m
  | MultipartOutcome.ok acc =>
      match acc.content_type with
      | none =>
          MultipartOutcome.panicked "called Option::unwrap on a None value"
      | some ct =>
          match validate zeroTemp acc.file ct acc.language acc.prompt
              acc.temperature acc.response_format with
          | Except.ok request => MultipartOutcome.ok request
          | Except.error e => MultipartOutcome.err e

/-- From `hfendpoints-http/src/audio/transcription.rs`: the dispatch step of
the `transcribe` route handler.  The multipart body is decoded first (the
question-mark operator propagates a decoding failure before anything is
scheduled, and a panic aborts the handler likewise before anything is
scheduled); only a successfully decoded request is wrapped with its
correlation context and scheduled on the endpoint context.  The tail of the
handler that awaits the response mirrors `OpenAi.embed` and carries no
transcription-specific logic. -/
def transcribe (parseTemp : String → Option Temp) (zeroTemp : Temp)
    (requestId : String)
    (st : DispatchState (TranscriptionRequest Temp × Context))
    (fields : List Field) :
    MultipartOutcome (EndpointResult Nat)
      × DispatchState (TranscriptionRequest Temp × Context) :=
  match try_from_multipart parseTemp zeroTemp fields with
  | MultipartOutcome.err e => (MultipartOutcome.err e, st)
  | MultipartOutcome.panicked m => (MultipartOutcome.panicked m, st)
  | MultipartOutcome.ok request =>
      let ctx : Context := { request_id := requestId }
      let (res, st') := schedule st (request, ctx)
      (MultipartOutcome.ok res, st')

/-- The five field names recognised by the field loop of
`try_from_multipart`. -/
def knownFieldNames : List String :=
  ["file", "language", "prompt", "temperature", "response_format"]

end Transcription

/-! ## Theorems -/

section CoreTheorems

open Core

variable {I O : Type}

theorem schedule_dead (st : DispatchState I) (r : I)
    (h : st.consumerAlive = false) :
    (schedule st r).1
        = Except.error (Error.Handler (HandlerError.IpcFailed sendErrorMsg))
      ∧ (schedule st r).2.queue = st.queue := by
  simp [schedule, h]

theorem schedule_alive (st : DispatchState I) (r : I)
    (h : st.consumerAlive = true) :
    (schedule st r).1 = Except.ok st.nextSink
      ∧ (schedule st r).2.queue = st.queue ++ [(r, st.nextSink)]
      ∧ (schedule st r).2.consumerAlive = st.consumerAlive
      ∧ (schedule st r).2.nextSink = st.nextSink + 1 := by
  simp [schedule, h]

/-- **C2.** If the consumer of the Dispatch Channel has already been dropped
when `EndpointContext::schedule` is called, `schedule` returns the `IpcFailed`
error at send time — the embedding of `schedule` is a total function whose
send step never waits — and leaves the channel untouched; otherwise it
returns `Ok` with the freshly allocated receiver and its only side effect on
the channel is appending the single `(request, sink)` item. -/
theorem schedule_ipc_failure_sync (st : DispatchState I) (r : I) :
    (st.consumerAlive = false →
      (schedule st r).1
          = Except.error (Error.Handler (HandlerError.IpcFailed sendErrorMsg))
        ∧ (schedule st r).2.queue = st.queue)
    ∧ (st.consumerAlive = true →
      (schedule st r).1 = Except.ok st.nextSink
        ∧ (schedule st r).2.queue = st.queue ++ [(r, st.nextSink)]) :=
  ⟨fun h => schedule_dead st r h,
   fun h => ⟨(schedule_alive st r h).1, (schedule_alive st r h).2.1⟩⟩

/-- Witness for C2 at concrete states: a dead-consumer state yields the
`IpcFailed` error with the queue untouched, and a live-consumer state yields
`Ok` with exactly one enqueued item. -/
theorem schedule_ipc_failure_sync_witness :
    ((schedule (I := Nat) { nextSink := 5, queue := [], consumerAlive := false } 42).1
        = Except.error (Error.Handler (HandlerError.IpcFailed sendErrorMsg))
      ∧ (schedule (I := Nat) { nextSink := 5, queue := [], consumerAlive := false } 42).2.queue = [])
    ∧ ((schedule (I := Nat) { nextSink := 5, queue := [], consumerAlive := true } 42).1
        = Except.ok 5
      ∧ (schedule (I := Nat) { nextSink := 5, queue := [], consumerAlive := true } 42).2.queue
        = [] ++ [(42, 5)]) :=
  ⟨(schedule_ipc_failure_sync { nextSink := 5, queue := [], consumerAlive := false } 42).1 rfl,
   (schedule_ipc_failure_sync { nextSink := 5, queue := [], consumerAlive := true } 42).2 rfl⟩

theorem wait_for_requests_eq_map (handler : I → EndpointResult O)
    (ro : Nat → Bool) (q : List (I × Nat)) :
    wait_for_requests handler ro q
      = q.map (itemEvent handler ro) ++ [LoopEvent.exited] := by
  induction q with
  | nil => rfl
  | cons item rest ih => simp [wait_for_requests, ih]

theorem isExit_itemEvent (handler : I → EndpointResult O) (ro : Nat → Bool)
    (item : I × Nat) : isExit (itemEvent handler ro item) = false := by
  unfold itemEvent
  split <;> rfl

/-- **C3.** A run of the Dispatch Loop over any drained-then-closed channel
content — for *every* handler, so in particular for handlers that return
errors, and for *every* pattern of already-dropped caller receivers — emits
the loop-exit event exactly once, as its very last event (the loop terminates
only when the channel reports closure, and never terminates or panics
mid-queue because of a failed handler invocation or a failed delivery), and
every queued request whose caller still holds its receiver is delivered the
result of its own handler invocation. -/
theorem dispatch_loop_exits_only_on_closure (handler : I → EndpointResult O)
    (ro : Nat → Bool) (q : List (I × Nat)) (r : I) (s : Nat)
    (hmem : (r, s) ∈ q) (hopen : ro s = true) :
    (wait_for_requests handler ro q).getLast? = some LoopEvent.exited
      ∧ (wait_for_requests handler ro q).countP isExit = 1
      ∧ LoopEvent.delivered s (handler r) ∈ wait_for_requests handler ro q := by
  rw [wait_for_requests_eq_map]
  refine ⟨List.getLast?_concat _, ?_, ?_⟩
  · rw [List.countP_append]
    have h0 : (q.map (itemEvent handler ro)).countP isExit = 0 := by
      rw [List.countP_eq_zero]
      intro e he
      obtain ⟨item, _, rfl⟩ := List.mem_map.mp he
      simp [isExit_itemEvent]
    simp [h0, List.countP_cons, isExit]
  · refine List.mem_append_left _ (List.mem_map.mpr ⟨(r, s), hmem, ?_⟩)
    simp [itemEvent, hopen]

/-- Witness for C3: a two-item queue where the first caller has dropped its
receiver and the handler fails on the first request; the loop still exits
exactly once, at the end, and the second, unrelated request is served its own
result. -/
theorem dispatch_loop_exits_only_on_closure_witness :
    (wait_for_requests
          (fun n => if n = 1 then Except.error (Error.Handler (HandlerError.IpcFailed "boom"))
                    else Except.ok (n + 1))
          (fun s => decide (s ≠ 0)) [(1, 0), (2, 1)]).getLast?
        = some LoopEvent.exited
      ∧ (wait_for_requests
          (fun n => if n = 1 then Except.error (Error.Handler (HandlerError.IpcFailed "boom"))
                    else Except.ok (n + 1))
          (fun s => decide (s ≠ 0)) [(1, 0), (2, 1)]).countP isExit = 1
      ∧ LoopEvent.delivered 1
          ((fun n => if n = 1 then Except.error (Error.Handler (HandlerError.IpcFailed "boom"))
                     else Except.ok (n + 1)) 2)
        ∈ wait_for_requests
            (fun n => if n = 1 then Except.error (Error.Handler (HandlerError.IpcFailed "boom"))
                      else Except.ok (n + 1))
            (fun s => decide (s ≠ 0)) [(1, 0), (2, 1)] :=
  dispatch_loop_exits_only_on_closure _ _ _ 2 1 (by decide) (by decide)

end CoreTheorems

section DispatchCorrelation

open Core

variable {I O : Type}

theorem scheduleAll_alive (rs : List I) :
    ∀ st : DispatchState I, st.consumerAlive = true →
      (scheduleAll st rs).1 = (List.range' st.nextSink rs.length).map Except.ok
        ∧ (scheduleAll st rs).2.queue
            = st.queue ++ rs.zip (List.range' st.nextSink rs.length)
        ∧ (scheduleAll st rs).2.consumerAlive = true := by
  induction rs with
  | nil => intro st h; simp [scheduleAll, h]
  | cons r rs ih =>
    intro st h
    obtain ⟨h1, h2, h3⟩ :=
      ih { nextSink := st.nextSink + 1,
           queue := st.queue ++ [(r, st.nextSink)],
           consumerAlive := true } rfl
    simp only [scheduleAll, schedule, h, if_true]
    refine ⟨?_, ?_, h3⟩
    · simpa [List.range'_succ] using h1
    · simpa [List.range'_succ, List.append_assoc] using h2

theorem sinkWrites_wait_for_requests (handler : I → EndpointResult O)
    (ro : Nat → Bool) (q : List (I × Nat)) (s : Nat) :
    sinkWrites (wait_for_requests handler ro q) s
      = q.filterMap (fun item =>
          if ro item.2 then
            (if item.2 = s then some (handler item.1) else none)
          else none) := by
  induction q with
  | nil => rfl
  | cons item rest ih =>
    unfold sinkWrites at ih ⊢
    by_cases h : ro item.2
    · by_cases h2 : item.2 = s
      · subst h2
        simp [wait_for_requests, List.filterMap_cons, itemEvent,
          writeTo, h, ih]
      · simp [wait_for_requests, List.filterMap_cons, itemEvent,
          writeTo, h, h2, ih]
    · simp [wait_for_requests, List.filterMap_cons, itemEvent,
        writeTo, h, ih]

theorem filterMap_zip_range'_out (handler : I → EndpointResult O)
    (rs : List I) :
    ∀ a s : Nat, s < a →
      (rs.zip (List.range' a rs.length)).filterMap
          (fun item => if item.2 = s then some (handler item.1) else none)
        = [] := by
  induction rs with
  | nil => intro a s _; rfl
  | cons r rs ih =>
    intro a s hs
    have hne : ¬ (a = s) := by omega
    simp only [List.length_cons, List.range'_succ, List.zip_cons_cons,
      List.filterMap_cons, hne, if_false]
    exact ih (a + 1) s (by omega)

theorem filterMap_zip_range'_get (handler : I → EndpointResult O)
    (rs : List I) :
    ∀ a i : Nat, ∀ hi : i < rs.length,
      (rs.zip (List.range' a rs.length)).filterMap
          (fun item => if item.2 = a + i then some (handler item.1) else none)
        = [handler (rs.get ⟨i, hi⟩)] := by
  induction rs with
  | nil => intro a i hi; exact absurd hi (by simp)
  | cons r rs ih =>
    intro a i hi
    cases i with
    | zero =>
      simp only [List.length_cons, List.range'_succ, List.zip_cons_cons,
        List.filterMap_cons, Nat.add_zero, if_pos rfl]
      rw [filterMap_zip_range'_out handler rs (a + 1) a (by omega)]
      rfl
    | succ i' =>
      have harith : a + (i' + 1) = (a + 1) + i' := by omega
      rw [harith]
      have hne : ¬ (a = (a + 1) + i') := by omega
      simp only [List.length_cons, List.range'_succ, List.zip_cons_cons,
        List.filterMap_cons, List.get_cons_succ]
      simp only [hne, if_false]
      exact ih (a + 1) i' (Nat.lt_of_succ_lt_succ hi)

/-- **C1.** For any sequence of requests scheduled through
`EndpointContext::schedule` while the Dispatch Loop consumer is alive — the
sequence being the arbitrary linearisation of any number of concurrent
producers — the `i`-th call returns the fresh receiver `i`, and a run of
`wait_for_requests` over the resulting channel content writes to that
receiver exactly one value, namely the handler result for the `i`-th request
itself and not that of any other concurrently scheduled request. -/
theorem schedule_dispatch_exactly_once (handler : I → EndpointResult O)
    (rs : List I) (i : Nat) (hi : i < rs.length) :
    (scheduleAll (initState I) rs).1[i]? = some (Except.ok i)
      ∧ sinkWrites
          (wait_for_requests handler (fun _ => true)
            (scheduleAll (initState I) rs).2.queue) i
        = [handler (rs.get ⟨i, hi⟩)] := by
  obtain ⟨h1, h2, _⟩ := scheduleAll_alive rs (initState I) rfl
  constructor
  · rw [h1, List.getElem?_map]
    have : (List.range' (initState I).nextSink rs.length)[i]? = some i := by
      simp [initState, List.getElem?_range', hi]
    rw [this]
    rfl
  · rw [h2, sinkWrites_wait_for_requests]
    simp only [initState, List.nil_append, if_true]
    have := filterMap_zip_range'_get handler rs 0 i hi
    simpa using this

/-- Witness for C1: three requests scheduled concurrently; the second caller
gets receiver 1 and reads exactly its own handler result. -/
theorem schedule_dispatch_exactly_once_witness :
    (scheduleAll (initState Nat) [3, 4, 5]).1[1]? = some (Except.ok 1)
      ∧ sinkWrites
          (wait_for_requests (fun n => Except.ok (n * 10)) (fun _ => true)
            (scheduleAll (initState Nat) [3, 4, 5]).2.queue) 1
        = [Except.ok 40] :=
  schedule_dispatch_exactly_once (fun n => Except.ok (n * 10)) [3, 4, 5] 1
    (by decide)

end DispatchCorrelation

section RouterTheorems

open Core Tasks Http OpenAi

/-- **C4.** If `schedule` succeeded for an embeddings request (the consumer
was alive at send time) but the consumer side then stops before any value is
written to the fresh response sink of that request, the `embed` task router
awaiting the receiver observes channel closure and returns
`HttpError::NoResponse` instead of hanging (the embedding of the await is a
total function of the closed sink contents). -/
theorem embed_no_response {F : Type}
    (st : DispatchState (OpenAiEmbeddingRequest × Context))
    (requestId : String) (request : OpenAiEmbeddingRequest)
    (writesOf : Nat → List (EndpointResult (OpenAiEmbeddingResponse F)))
    (halive : st.consumerAlive = true)
    (hempty : writesOf st.nextSink = []) :
    (embed st requestId request writesOf).1
      = Except.error HttpError.NoResponse := by
  unfold embed
  simp [schedule, halive, hempty]

/-- Witness for C4: a concrete live state whose sink never receives a value
yields `NoResponse`. -/
theorem embed_no_response_witness :
    (embed (F := Nat)
        (initState (OpenAiEmbeddingRequest × Context)) "req-0"
        { encoding_format := EncodingFormat.Float,
          input := MaybeBatched.Single (EmbeddingInput.Text "hello"),
          model := none, dimension := none, user := none }
        (fun _ => [])).1
      = Except.error HttpError.NoResponse :=
  embed_no_response _ _ _ _ rfl rfl

end RouterTheorems

section UsageTheorems

open Tasks

/-- **C5, counterexample.** `Usage::new` stores its two arguments unchecked,
so the construction helpers do not enforce
`prompt_tokens <= total_tokens`: `Usage::new(5, 3)` violates it. -/
theorem usage_new_unchecked :
    ¬ ((Usage.new 5 3).prompt_tokens ≤ (Usage.new 5 3).total_tokens) := by
  decide

/-- **C5, amended.** `Usage::same(n)` yields
`prompt_tokens == total_tokens == n` (hence satisfies
`prompt_tokens <= total_tokens`), and the default value satisfies the
invariant too; but `Usage::new(p, t)` stores `p` and `t` unchanged, without
enforcing `prompt_tokens <= total_tokens`. -/
theorem usage_helpers_spec :
    ∀ n p t : Nat,
      (Usage.same n).prompt_tokens = n
        ∧ (Usage.same n).total_tokens = n
        ∧ (Usage.same n).prompt_tokens ≤ (Usage.same n).total_tokens
        ∧ Usage.defaultValue.prompt_tokens ≤ Usage.defaultValue.total_tokens
        ∧ (Usage.new p t).prompt_tokens = p
        ∧ (Usage.new p t).total_tokens = t := by
  intro n p t
  simp [Usage.same, Usage.new, Usage.defaultValue]

end UsageTheorems

section RoundtripTheorems

open Tasks

theorem mapM_decode_map_encode {α : Type} (dec : Json → Option α)
    (enc : α → Json) (l : List α) (h : ∀ a ∈ l, dec (enc a) = some a) :
    (l.map enc).mapM dec = some l := by
  induction l with
  | nil => rfl
  | cons a l ih =>
    simp only [List.map_cons, List.mapM_cons, h a (List.mem_cons_self a l),
      ih (fun b hb => h b (List.mem_cons_of_mem a hb)), Option.pure_def,
      Option.bind_eq_bind, Option.some_bind]

theorem decodeNat_encodeInput (e : EmbeddingInput) :
    decodeNat (EmbeddingInput.encode e) = none := by
  cases e <;> rfl

theorem decode_encodeInput (e : EmbeddingInput) :
    EmbeddingInput.decode (EmbeddingInput.encode e) = some e := by
  cases e with
  | Text s => rfl
  | Tokens ts =>
    unfold EmbeddingInput.decode EmbeddingInput.encode
    simp only [decodeString, decodeArray]
    rw [mapM_decode_map_encode decodeNat Json.num ts (fun a _ => rfl)]
    rfl

theorem decodeString_encodeInput_arr (es : List EmbeddingInput)
    (hne : es ≠ []) :
    EmbeddingInput.decode (Json.arr (es.map EmbeddingInput.encode))
      = none := by
  cases es with
  | nil => exact absurd rfl hne
  | cons e es =>
    unfold EmbeddingInput.decode
    simp only [decodeString, decodeArray, List.map_cons, List.mapM_cons,
      decodeNat_encodeInput, Option.pure_def, Option.bind_eq_bind,
      Option.none_bind, Option.map_none']

/-- **C6, counterexample.**  For the request instantiation
`MaybeBatched<EmbeddingInput>` actually decoded by the embeddings endpoint,
the untagged wire round-trip is not the identity: `Batched([])` encodes as
the empty JSON array, which the untagged decoder — trying `Single` first —
accepts as a `Single(Tokens([]))`, not as `Batched([])`. -/
theorem maybeBatched_empty_batch_misdecodes :
    MaybeBatched.decode EmbeddingInput.decode
        (MaybeBatched.encode EmbeddingInput.encode
          (MaybeBatched.Batched ([] : List EmbeddingInput)))
      = some (MaybeBatched.Single (EmbeddingInput.Tokens []))
    ∧ MaybeBatched.Single (EmbeddingInput.Tokens [])
        ≠ MaybeBatched.Batched ([] : List EmbeddingInput) := by
  exact ⟨rfl, by decide⟩

/-- **C6, amended.**  The untagged wire round-trip of `MaybeBatched<T>`
(decoding attempts `Single` before falling back to `Batched`, per the variant
declaration order) is the identity for `T = String`: `Single(x)` round-trips
to `Single(x)` and never becomes `Batched([x])`, and `Batched(xs)`
round-trips to `Batched(xs)`.  For the embeddings request instantiation
`T = EmbeddingInput` the same holds for every `Single(x)` and for every
nonempty `Batched(xs)`; the one exception is `Batched([])`, which decodes as
`Single(Tokens([]))` (see the counterexample). -/
theorem maybeBatched_roundtrip (x : String) (xs : List String)
    (e : EmbeddingInput) (es : List EmbeddingInput) (hne : es ≠ []) :
    MaybeBatched.decode decodeString
        (MaybeBatched.encode Json.str (MaybeBatched.Single x))
      = some (MaybeBatched.Single x)
    ∧ MaybeBatched.decode decodeString
        (MaybeBatched.encode Json.str (MaybeBatched.Batched xs))
      = some (MaybeBatched.Batched xs)
    ∧ MaybeBatched.decode EmbeddingInput.decode
        (MaybeBatched.encode EmbeddingInput.encode (MaybeBatched.Single e))
      = some (MaybeBatched.Single e)
    ∧ MaybeBatched.decode EmbeddingInput.decode
        (MaybeBatched.encode EmbeddingInput.encode (MaybeBatched.Batched es))
      = some (MaybeBatched.Batched es) := by
  refine ⟨rfl, ?_, ?_, ?_⟩
  · unfold MaybeBatched.encode MaybeBatched.decode
    simp only [decodeString, decodeArray]
    rw [mapM_decode_map_encode decodeString Json.str xs (fun a _ => rfl)]
    rfl
  · unfold MaybeBatched.encode MaybeBatched.decode
    rw [decode_encodeInput e]
  · unfold MaybeBatched.encode MaybeBatched.decode
    rw [decodeString_encodeInput_arr es hne]
    simp only [decodeArray]
    rw [mapM_decode_map_encode EmbeddingInput.decode EmbeddingInput.encode es
      (fun a _ => decode_encodeInput a)]
    rfl

/-- Witness for C6 (amended) at concrete values, matching the examples of the
spec plus a nonempty embedding-input batch. -/
theorem maybeBatched_roundtrip_witness :
    MaybeBatched.decode decodeString
        (MaybeBatched.encode Json.str (MaybeBatched.Single "x"))
      = some (MaybeBatched.Single "x")
    ∧ MaybeBatched.decode decodeString
        (MaybeBatched.encode Json.str (MaybeBatched.Batched ["a", "b"]))
      = some (MaybeBatched.Batched ["a", "b"])
    ∧ MaybeBatched.decode EmbeddingInput.decode
        (MaybeBatched.encode EmbeddingInput.encode
          (MaybeBatched.Single (EmbeddingInput.Text "hello")))
      = some (MaybeBatched.Single (EmbeddingInput.Text "hello"))
    ∧ MaybeBatched.decode EmbeddingInput.decode
        (MaybeBatched.encode EmbeddingInput.encode
          (MaybeBatched.Batched [EmbeddingInput.Tokens [1, 2]]))
      = some (MaybeBatched.Batched [EmbeddingInput.Tokens [1, 2]]) :=
  maybeBatched_roundtrip "x" ["a", "b"] (EmbeddingInput.Text "hello")
    [EmbeddingInput.Tokens [1, 2]] (by decide)

end RoundtripTheorems

section EmbeddingConversionTheorems

open Tasks OpenAi

/-- **C7.** Converting an `EmbeddingResponse` to the OpenAI wire response: a
`Single(v)` output with usage `(p, t)` yields
`{object: list, data: [{object: embedding, index: 0, embedding: v}],
usage: {prompt_tokens: p, total_tokens: t}}` (the `model` field is filled
with the empty string), and a batched output of `n` vectors yields the tag
`object = list` and `n` data entries where entry `i` carries
`object = embedding`, `index = i` and the `i`-th vector. -/
theorem embedding_response_wire_shape {F : Type} (v : List F) (p t : Nat)
    (u : Usage) (xs : List (List F)) (i : Nat) (hi : i < xs.length) :
    tryFromEmbeddingResponse
        { output := MaybeBatched.Single v, usage := some (Usage.new p t) }
      = Except.ok
          { object := EmbeddingResponseTag.List,
            data := [{ object := EmbeddingTag.Embedding, index := 0,
                       embedding := v }],
            model := "",
            usage := { prompt_tokens := p, total_tokens := t } }
    ∧ ∃ d, tryFromEmbeddingResponse
            { output := MaybeBatched.Batched xs, usage := some u }
          = Except.ok
              { object := EmbeddingResponseTag.List, data := d, model := "",
                usage := u }
        ∧ d.length = xs.length
        ∧ d[i]? = some { object := EmbeddingTag.Embedding, index := i,
                         embedding := xs.get ⟨i, hi⟩ } := by
  refine ⟨rfl, _, rfl, ?_, ?_⟩
  · simp [List.enum_length]
  · rw [List.getElem?_map, List.getElem?_enum,
      List.getElem?_eq_getElem hi]
    rfl

/-- Witness for C7 at the concrete scenario of the spec: a single
three-component vector with usage `(1, 1)`, and a two-vector batch where the
datum at position 1 carries index 1. -/
theorem embedding_response_wire_shape_witness :
    tryFromEmbeddingResponse
        { output := MaybeBatched.Single [1, 2, 3],
          usage := some (Usage.new 1 1) }
      = Except.ok
          { object := EmbeddingResponseTag.List,
            data := [{ object := EmbeddingTag.Embedding, index := 0,
                       embedding := [1, 2, 3] }],
            model := "",
            usage := { prompt_tokens := 1, total_tokens := 1 } }
    ∧ ∃ d, tryFromEmbeddingResponse
            { output := MaybeBatched.Batched [[5], [6]],
              usage := some (Usage.new 2 4) }
          = Except.ok
              { object := EmbeddingResponseTag.List, data := d, model := "",
                usage := Usage.new 2 4 }
        ∧ d.length = ([[5], [6]] : List (List Nat)).length
        ∧ d[1]? = some { object := EmbeddingTag.Embedding, index := 1,
                         embedding := ([[5], [6]] : List (List Nat)).get
                           ⟨1, by decide⟩ } :=
  embedding_response_wire_shape [1, 2, 3] 1 1 (Usage.new 2 4) [[5], [6]] 1
    (by decide)

/-- **C10.** An `EmbeddingResponse` whose `usage` field is `None` still
converts successfully to the OpenAI wire response, and the wire usage falls
back to `Usage::default()`, i.e. `prompt_tokens = 0` and
`total_tokens = 0`. -/
theorem embedding_response_default_usage {F : Type}
    (r : EmbeddingResponse F) (h : r.usage = none) :
    ∃ res, tryFromEmbeddingResponse r = Except.ok res
      ∧ res.usage.prompt_tokens = 0 ∧ res.usage.total_tokens = 0 := by
  unfold tryFromEmbeddingResponse
  rw [h]
  exact ⟨_, rfl, rfl, rfl⟩

/-- Witness for C10: a concrete usage-less response converts with zero
usage. -/
theorem embedding_response_default_usage_witness :
    ∃ res, tryFromEmbeddingResponse
        { output := MaybeBatched.Single ([1] : List Nat), usage := none }
      = Except.ok res
      ∧ res.usage.prompt_tokens = 0 ∧ res.usage.total_tokens = 0 :=
  embedding_response_default_usage
    { output := MaybeBatched.Single ([1] : List Nat), usage := none } rfl

end EmbeddingConversionTheorems

section TranscriptionTheorems

open Core Http Transcription

variable {Temp : Type}

/-- **C8 (code bug evidence).**  For a transcription multipart request that
lacks the `file` field, `TranscriptionRequest::validate` would return the
validation error `Required parameter file was not provided` — but
`try_from_multipart` never reaches it: after the field loop it evaluates
`content_type.unwrap()` on a `None` (that accumulator is only set by the
`file` arm) and panics, so the handler aborts with a panic instead of a
validation-class response.  No item is dispatched either way: the queue of
the Dispatch Channel is untouched. -/
theorem transcription_missing_file_panics :
    try_from_multipart (fun _ => (none : Option Nat)) 0
        [{ name := "language", contentType := none, content := "en" }]
      = MultipartOutcome.panicked "called Option::unwrap on a None value"
    ∧ validate 0 none "unknown" (some "en") none none none
      = Except.error
          (HttpError.Validation "Required parameter file was not provided")
    ∧ (transcribe (fun _ => (none : Option Nat)) 0 "req-1"
          (initState (TranscriptionRequest Nat × Context))
          [{ name := "language", contentType := none, content := "en" }]).2.queue
      = [] :=
  ⟨rfl, rfl, rfl⟩

theorem multipartLoop_shape (parseTemp : String → Option Temp) :
    ∀ (fields : List Field) (acc : FormAcc Temp),
      (∃ acc', multipartLoop parseTemp acc fields
          = MultipartOutcome.ok acc')
      ∨ (∃ msg, multipartLoop parseTemp acc fields
          = MultipartOutcome.err (HttpError.Validation msg)) := by
  intro fields
  induction fields with
  | nil => intro acc; exact Or.inl ⟨acc, rfl⟩
  | cons f rest ih =>
    intro acc
    unfold multipartLoop
    by_cases h1 : f.name = "file"
    · rw [if_pos h1]; exact ih _
    rw [if_neg h1]
    by_cases h2 : f.name = "language"
    · rw [if_pos h2]; exact ih _
    rw [if_neg h2]
    by_cases h3 : f.name = "prompt"
    · rw [if_pos h3]; exact ih _
    rw [if_neg h3]
    by_cases h4 : f.name = "temperature"
    · rw [if_pos h4]
      cases hp : parseTemp f.content with
      | some t => exact ih _
      | none => exact Or.inr ⟨"invalid float literal", rfl⟩
    rw [if_neg h4]
    by_cases h5 : f.name = "response_format"
    · rw [if_pos h5]; exact ih _
    rw [if_neg h5]
    exact Or.inr ⟨"Unknown field: " ++ f.name, rfl⟩

theorem multipartLoop_ok_known (parseTemp : String → Option Temp) :
    ∀ (fields : List Field) (acc acc' : FormAcc Temp),
      multipartLoop parseTemp acc fields = MultipartOutcome.ok acc' →
      ∀ f ∈ fields, f.name ∈ knownFieldNames := by
  intro fields
  induction fields with
  | nil => intro acc acc' _ f hf; cases hf
  | cons g rest ih =>
    intro acc acc' hok f hf
    unfold multipartLoop at hok
    by_cases h1 : g.name = "file"
    · rw [if_pos h1] at hok
      rcases List.mem_cons.mp hf with rfl | hf'
      · simp [knownFieldNames, h1]
      · exact ih _ _ hok f hf'
    rw [if_neg h1] at hok
    by_cases h2 : g.name = "language"
    · rw [if_pos h2] at hok
      rcases List.mem_cons.mp hf with rfl | hf'
      · simp [knownFieldNames, h2]
      · exact ih _ _ hok f hf'
    rw [if_neg h2] at hok
    by_cases h3 : g.name = "prompt"
    · rw [if_pos h3] at hok
      rcases List.mem_cons.mp hf with rfl | hf'
      · simp [knownFieldNames, h3]
      · exact ih _ _ hok f hf'
    rw [if_neg h3] at hok
    by_cases h4 : g.name = "temperature"
    · rw [if_pos h4] at hok
      cases hp : parseTemp g.content with
      | some t =>
        rw [hp] at hok
        rcases List.mem_cons.mp hf with rfl | hf'
        · simp [knownFieldNames, h4]
        · exact ih _ _ hok f hf'
      | none => rw [hp] at hok; simp at hok
    rw [if_neg h4] at hok
    by_cases h5 : g.name = "response_format"
    · rw [if_pos h5] at hok
      rcases List.mem_cons.mp hf with rfl | hf'
      · simp [knownFieldNames, h5]
      · exact ih _ _ hok f hf'
    rw [if_neg h5] at hok
    simp at hok

/-- **C9.** Any transcription multipart request containing a field whose
name is not one of `file`, `language`, `prompt`, `temperature`,
`response_format` — so in particular the `model` field that
`TranscriptionForm` documents for OpenAI compatibility — fails to decode
with a `Validation` error, and nothing is dispatched: the queue of the
Dispatch Channel is left exactly as it was. -/
theorem unknown_field_never_dispatched (parseTemp : String → Option Temp)
    (zeroTemp : Temp) (requestId : String)
    (st : DispatchState (TranscriptionRequest Temp × Context))
    (fields : List Field)
    (hex : ∃ f ∈ fields, f.name ∉ knownFieldNames) :
    (∃ msg, try_from_multipart parseTemp zeroTemp fields
        = MultipartOutcome.err (HttpError.Validation msg))
    ∧ (transcribe parseTemp zeroTemp requestId st fields).2.queue
        = st.queue := by
  obtain ⟨f, hf, hunknown⟩ := hex
  rcases multipartLoop_shape parseTemp fields FormAcc.empty with
    ⟨acc', hok⟩ | ⟨msg, herr⟩
  · exact absurd (multipartLoop_ok_known parseTemp fields _ _ hok f hf)
      hunknown
  · refine ⟨⟨msg, ?_⟩, ?_⟩
    · unfold try_from_multipart
      rw [herr]
    · unfold transcribe try_from_multipart
      rw [herr]

/-- Witness for C9: a multipart body carrying the `model` field is rejected
with a validation error and dispatches nothing. -/
theorem unknown_field_never_dispatched_witness :
    (∃ msg, try_from_multipart (fun _ => (none : Option Nat)) 0
        [{ name := "model", contentType := none, content := "whisper" }]
      = MultipartOutcome.err (HttpError.Validation msg))
    ∧ (transcribe (fun _ => (none : Option Nat)) 0 "req-2"
          (initState (TranscriptionRequest Nat × Context))
          [{ name := "model", contentType := none, content := "whisper" }]).2.queue
        = (initState (TranscriptionRequest Nat × Context)).queue :=
  unknown_field_never_dispatched (fun _ => none) 0 "req-2"
    (initState (TranscriptionRequest Nat × Context))
    [{ name := "model", contentType := none, content := "whisper" }]
    ⟨{ name := "model", contentType := none, content := "whisper" },
      List.mem_singleton.mpr rfl, by decide⟩

end TranscriptionTheorems
